import Mathlib

/-!
Shallow embedding of the serge backend data layer
(`src/api/src/serge/crud.py`, `src/api/src/serge/schema/user.py`,
`src/api/src/serge/database.py`) in Lean 4.

View schemas are translated from `schema/user.py`. The persisted row types
(the SQLAlchemy models in `serge/models/user.py`, which are not part of the
provided sources) are modelled from the spec's storage-schema description:
`users(id, username, email, full_name, theme_light, default_prompt,
is_active)`, `user_auth(id, user_id, secret, auth_type)`,
`chats(chat_id, owner, user_id)`, with the `auth` and `chats` relationship
collections carried on the user row. Opaque identifiers (uuid) are modelled
as `Nat`; the random `uuid.uuid4()` and the external password-hash function
are passed in as explicit parameters. A transactional session is modelled as
an explicit `DbState` value threaded through the mutating operations.
-/

namespace serge

/-- Default prompt text from `schema/user.py` (`User.default_prompt`). -/
def default_prompt_text : String :=
  "Below is an instruction that describes a task. Write a response that appropriately completes the request."

namespace user_schema

/-- View schema `UserAuth` (`schema/user.py`): `UserBase` gives `username`;
`UserAuth` adds `secret` and `auth_type`. -/
structure UserAuth where
  username : String
  secret : String
  auth_type : Int
deriving DecidableEq, Repr

/-- View schema `Chat` (`schema/user.py`). -/
structure Chat where
  chat_id : String
  owner : String
deriving DecidableEq, Repr

/-- View schema `User` (`schema/user.py`) with its pydantic field defaults. -/
structure User where
  username : String
  id : Nat
  is_active : Bool := true
  email : String := ""
  full_name : String := ""
  theme_light : Bool := false
  default_prompt : String := default_prompt_text
  auth : List UserAuth := []
  chats : List Chat := []
deriving DecidableEq, Repr

end user_schema

/-- Method `User.to_public_dict` (`schema/user.py`): `self.dict()` with every
`auth` entry's `secret` overwritten by the mask `"********"`. The returned
dictionary has exactly the fields of the view `User`, so it is modelled by
the same structure. -/
def user_schema.User.to_public_dict (u : user_schema.User) : user_schema.User :=
  { u with auth := u.auth.map (fun a => { a with secret := "********" }) }

namespace user_model

/-- Modelled from the spec: persisted `user_auth` row
(`serge/models/user.py` is not among the sources); columns
`secret`, `auth_type`, `user_id` as used by `crud.py`. -/
structure UserAuth where
  secret : String
  auth_type : Int
  user_id : Nat
deriving DecidableEq, Repr

/-- Modelled from the spec: persisted `chats` row; columns `chat_id` and
`owner` as used by `crud.py` (`owner` is nullable: `user_view_to_db`
constructs a row without it). -/
structure Chat where
  chat_id : String
  owner : Option String := none
deriving DecidableEq, Repr

/-- Modelled from the spec: persisted `users` row with its scalar columns
and the `auth` / `chats` relationship collections. -/
structure User where
  id : Nat
  username : String
  email : String
  full_name : String
  theme_light : Bool
  default_prompt : String
  is_active : Bool
  auth : List UserAuth := []
  chats : List Chat := []
deriving DecidableEq, Repr

end user_model

/-- The transactional session's visible state: the `users` table (rows with
their relationship collections) and the standalone `chats` table acted on by
`create_chat` / `remove_chat`. -/
structure DbState where
  users : List user_model.User
  chats : List user_model.Chat
deriving DecidableEq, Repr

namespace Mappers

/-- Static method `Mappers.user_auth_view_to_db` (`crud.py`) on a present input: builds a
persisted `UserAuth` from the view's `secret` and `auth_type` and the given
user id. (The source returns `None` on a `None` input; every call site
passes a present value.) -/
def user_auth_view_to_db (ua : user_schema.UserAuth) (user_id : Nat) : user_model.UserAuth :=
  { secret := ua.secret, auth_type := ua.auth_type, user_id := user_id }

/-- Body of `Mappers.user_db_to_view` (`crud.py`) on a present row: copies
the scalar columns, maps the auth collection (only when `include_auth`)
tagging each entry with the parent username, and always maps the chats
collection. (A pydantic `Chat` requires a present `owner`; a NULL owner is
rendered as `""`, a case no claim depends on.) -/
def user_db_to_view_fn (u : user_model.User) (include_auth : Bool) : user_schema.User :=
  let auths := if include_auth then u.auth else []
  let chats := u.chats
  { username := u.username
    id := u.id
    is_active := u.is_active
    email := u.email
    full_name := u.full_name
    theme_light := u.theme_light
    default_prompt := u.default_prompt
    auth := auths.map (fun x =>
      { username := u.username, secret := x.secret, auth_type := x.auth_type })
    chats := chats.map (fun x => { chat_id := x.chat_id, owner := x.owner.getD "" }) }

/-- Static method `Mappers.user_db_to_view` (`crud.py`): `None` maps to `None`
(`if not u: return None`), otherwise `user_db_to_view_fn`. `include_auth`
defaults to `false` as in the source. -/
def user_db_to_view (u : Option user_model.User) (include_auth : Bool := false) :
    Option user_schema.User :=
  u.map (fun x => user_db_to_view_fn x include_auth)

/-- Shared tail of `Mappers.user_view_to_db` (`crud.py`) once the user view
`uv` is resolved: maps the optional auth view to a persisted row bound to
`uv.id`, builds the persisted user from the view's scalar fields, appends
the auth row when present, and appends a persisted `Chat` row carrying only
`chat_id` for each view chat. -/
def user_view_to_db_core (uv : user_schema.User) (ua : Option user_schema.UserAuth) :
    user_model.User × Option user_model.UserAuth :=
  let auth := ua.map (fun uav => user_auth_view_to_db uav uv.id)
  let user : user_model.User :=
    { id := uv.id
      username := uv.username
      email := uv.email
      full_name := uv.full_name
      theme_light := uv.theme_light
      default_prompt := uv.default_prompt
      is_active := uv.is_active
      auth := match auth with
        | some a => [a]
        | none => []
      chats := uv.chats.map (fun chat => { chat_id := chat.chat_id, owner := none }) }
  (user, auth)

/-- Static method `Mappers.user_view_to_db` (`crud.py`): asserts at least one input
(modelled as `none` on the double-`None` call); when no user view is given,
synthesizes a fresh view `User` from the auth view's username and a fresh
identifier; then `user_view_to_db_core`. -/
def user_view_to_db (freshId : Nat) (u : Option user_schema.User)
    (ua : Option user_schema.UserAuth) :
    Option (user_model.User × Option user_model.UserAuth) :=
  match u, ua with
  | none, none => none
  | none, some uav => some (user_view_to_db_core { username := uav.username, id := freshId } (some uav))
  | some uv, _ => some (user_view_to_db_core uv ua)

end Mappers

/-- Function `get_user` (`crud.py`): first row whose `username` equals the argument,
mapped to the view with `include_auth=True`. -/
def get_user (db : DbState) (username : String) : Option user_schema.User :=
  Mappers.user_db_to_view (db.users.find? (fun x => x.username == username)) true

/-- Function `get_user_by_email` (`crud.py`): first row whose `email` equals the
argument, mapped to the view with the default `include_auth=False`. -/
def get_user_by_email (db : DbState) (email : String) : Option user_schema.User :=
  Mappers.user_db_to_view (db.users.find? (fun x => x.email == email))

/-- Function `get_users` (`crud.py`): `offset(skip).limit(limit)` page of the users
table, each row mapped with the default `include_auth=False` (the rows
produced by the query are present, so the mapper's `None` guard never
fires). -/
def get_users (db : DbState) (skip : Nat := 0) (limit : Nat := 100) :
    List user_schema.User :=
  ((db.users.drop skip).take limit).map (fun u => Mappers.user_db_to_view_fn u false)

/-- Function `create_user` (`crud.py`): rejects an existing username (`None`,
state untouched); dispatches on `auth_type` — `1` hashes the secret in
place, anything else returns `None` without persisting; builds the rows via
`user_view_to_db` with a fresh id, adds them, commits, and returns the
created user mapped without auth. `hash` is the external
`get_password_hash`; `freshId` models `uuid.uuid4()`. -/
def create_user (hash : String → String) (freshId : Nat) (db : DbState)
    (ua : user_schema.UserAuth) : Option user_schema.User × DbState :=
  if (get_user db ua.username).isSome then (none, db)
  else if ua.auth_type = 1 then
    let ua2 := { ua with secret := hash ua.secret }
    match Mappers.user_view_to_db freshId none (some ua2) with
    | some (db_user, _db_user_auth) =>
        (Mappers.user_db_to_view (some db_user),
         { db with users := db.users ++ [db_user] })
    | none => (none, db)
  else (none, db)

/-- The `setattr` loop of `update_user` (`crud.py`): every key of
`u.dict()` is written onto the existing row except `auth` and `chats`,
which keep the row's stored collections. -/
def update_user_overwrite (old : user_model.User) (u : user_schema.User) :
    user_model.User :=
  { id := u.id
    username := u.username
    email := u.email
    full_name := u.full_name
    theme_light := u.theme_light
    default_prompt := u.default_prompt
    is_active := u.is_active
    auth := old.auth
    chats := old.chats }

/-- In-place mutation of the first row satisfying `p` (the session mutates
the single object returned by `.first()`). -/
def updateFirst (p : α → Bool) (f : α → α) : List α → List α
  | [] => []
  | x :: xs => if p x then f x :: xs else x :: updateFirst p f xs

/-- Function `update_user` (`crud.py`): looks the row up by the view's username;
absent → `None`, state untouched; otherwise overwrites its fields
(`update_user_overwrite`), commits, and returns the mutated row itself. -/
def update_user (db : DbState) (u : user_schema.User) :
    Option user_model.User × DbState :=
  match db.users.find? (fun x => x.username == u.username) with
  | none => (none, db)
  | some old =>
      (some (update_user_overwrite old u),
       { db with users := updateFirst (fun x => x.username == u.username)
                   (fun x => update_user_overwrite x u) db.users })

/-- Function `create_chat` (`crud.py`): inserts `Chat(owner=chat.owner,
chat_id=chat.chat_id)` and commits; no existence check. -/
def create_chat (db : DbState) (chat : user_schema.Chat) : DbState :=
  { db with chats := db.chats ++ [{ chat_id := chat.chat_id, owner := some chat.owner }] }

/-- Function `remove_chat` (`crud.py`): `.one()` on the rows matching `chat_id`
raises unless exactly one row matches (the exception leaves the session
unchanged, modelled by returning the error alongside the untouched state);
on exactly one match that row is deleted and the deletion committed. -/
def remove_chat (db : DbState) (chat : user_schema.Chat) :
    Except String Unit × DbState :=
  let ms := db.chats.filter (fun c => c.chat_id == chat.chat_id)
  if ms.length = 1 then
    (Except.ok (), { db with chats := db.chats.eraseP (fun c => c.chat_id == chat.chat_id) })
  else
    (Except.error "query did not return exactly one row", db)

/-- Function `seed_db` (`database.py`): if a row with username `"system"` exists, do
nothing; otherwise insert the default system user (with one auth record of
`auth_type` 0 and empty secret) and commit. `freshId` models
`uuid.uuid4()`. -/
def seed_db (freshId : Nat) (db : DbState) : DbState :=
  if (db.users.find? (fun x => x.username == "system")).isSome then db
  else
    { db with users := db.users ++
        [{ id := freshId
           username := "system"
           email := ""
           full_name := "Default User"
           theme_light := false
           default_prompt := default_prompt_text
           is_active := true
           auth := [{ secret := "", auth_type := 0, user_id := freshId }]
           chats := [] }] }

/-! ## Theorems -/

/-- Lookup `get_user` answers `some` exactly when some stored row carries the
username (the lookup is an exact match on `username`). -/
theorem get_user_isSome_iff (db : DbState) (username : String) :
    (get_user db username).isSome ↔ ∃ u ∈ db.users, u.username = username := by
  simp [get_user, Mappers.user_db_to_view, List.find?_isSome]

/-- C4: for every `User` view, regardless of the contents of its auth
records, every auth entry of `to_public_dict` has `secret` equal to the
fixed mask string `"********"`. -/
theorem to_public_dict_masks_secrets (u : user_schema.User) :
    ∀ a ∈ u.to_public_dict.auth, a.secret = "********" := by
  intro a ha
  simp only [user_schema.User.to_public_dict, List.mem_map] at ha
  obtain ⟨b, _, rfl⟩ := ha
  rfl

/-- Concrete user view, auth record not yet masked, for the C4 witness. -/
def sampleViewUser : user_schema.User :=
  { username := "alice", id := 1,
    auth := [{ username := "alice", secret := "topsecret", auth_type := 1 }] }

/-- Witness for C4 at a concrete user with a non-masked stored secret. -/
theorem to_public_dict_masks_secrets_witness :
    (⟨"alice", "********", 1⟩ : user_schema.UserAuth) ∈
      sampleViewUser.to_public_dict.auth ∧
    (⟨"alice", "********", 1⟩ : user_schema.UserAuth).secret = "********" :=
  ⟨by decide,
   to_public_dict_masks_secrets sampleViewUser ⟨"alice", "********", 1⟩ (by decide)⟩

/-- C10: every view returned by the listing operation `get_users` has an
empty auth collection, whatever auth records the stored users hold. -/
theorem get_users_auth_empty (db : DbState) (skip limit : Nat) :
    ∀ v ∈ get_users db skip limit, v.auth = [] := by
  intro v hv
  simp only [get_users, List.mem_map] at hv
  obtain ⟨u, _, rfl⟩ := hv
  rfl

/-- Concrete state whose single user has a stored auth record, for the C10
witness. -/
def sampleDbListing : DbState :=
  { users := [{ id := 1, username := "alice", email := "a@b",
                full_name := "Alice", theme_light := false,
                default_prompt := "p", is_active := true,
                auth := [{ secret := "h", auth_type := 1, user_id := 1 }] }],
    chats := [] }

/-- Witness for C10: a stored user with an auth record is listed with an
empty auth collection. -/
theorem get_users_auth_empty_witness :
    (⟨"alice", 1, true, "a@b", "Alice", false, "p", [], []⟩ : user_schema.User) ∈
      get_users sampleDbListing 0 100 ∧
    (⟨"alice", 1, true, "a@b", "Alice", false, "p", [], []⟩ : user_schema.User).auth = [] :=
  ⟨by decide,
   get_users_auth_empty sampleDbListing 0 100
     ⟨"alice", 1, true, "a@b", "Alice", false, "p", [], []⟩ (by decide)⟩

/-- C7: mapping a persisted row to a view (`user_db_to_view`) and back to a
persisted row (`user_view_to_db`) preserves the scalar fields `username`,
`email`, `full_name`, `theme_light`, `default_prompt`, `is_active`. -/
theorem user_roundtrip_preserves_scalars (du : user_model.User) (freshId : Nat) :
    ∃ du2 aux,
      Mappers.user_view_to_db freshId
          (Mappers.user_db_to_view (some du) true) none = some (du2, aux) ∧
      du2.username = du.username ∧ du2.email = du.email ∧
      du2.full_name = du.full_name ∧ du2.theme_light = du.theme_light ∧
      du2.default_prompt = du.default_prompt ∧ du2.is_active = du.is_active :=
  ⟨_, _, rfl, rfl, rfl, rfl, rfl, rfl, rfl⟩

/-- C9: in `user_view_to_db`, each persisted `Chat` row constructed from
the view's chats carries only the `chat_id`; the `owner` column is left
unset. -/
theorem view_to_db_chats_carry_only_chat_id (freshId : Nat) (u : user_schema.User)
    (ua : Option user_schema.UserAuth) :
    ∃ du aux, Mappers.user_view_to_db freshId (some u) ua = some (du, aux) ∧
      du.chats.map (fun c => c.chat_id) = u.chats.map (fun c => c.chat_id) ∧
      ∀ c ∈ du.chats, c.owner = none := by
  refine ⟨_, _, rfl, ?_, ?_⟩
  · simp [Mappers.user_view_to_db_core]
  · intro c hc
    simp only [Mappers.user_view_to_db_core, List.mem_map] at hc
    obtain ⟨x, _, rfl⟩ := hc
    rfl

/-- C1: `create_user` returns `none` and leaves the state untouched when
the username already exists or the auth type is anything but 1. -/
theorem create_user_failure_leaves_state (hash : String → String) (freshId : Nat)
    (db : DbState) (ua : user_schema.UserAuth)
    (h : (∃ u ∈ db.users, u.username = ua.username) ∨ ua.auth_type ≠ 1) :
    create_user hash freshId db ua = (none, db) := by
  unfold create_user
  by_cases hex : (get_user db ua.username).isSome
  · simp [hex]
  · have hne : ua.auth_type ≠ 1 := by
      rcases h with hx | hx
      · exact absurd ((get_user_isSome_iff db ua.username).mpr hx) hex
      · exact hx
    simp [hex, hne]

/-- Concrete stored row named `alice`, for the C1 witness. -/
def sampleDbUserAlice : user_model.User :=
  { id := 1, username := "alice", email := "", full_name := "",
    theme_light := false, default_prompt := "", is_active := true }

/-- Witness for C1: both failure cases at concrete inputs. -/
theorem create_user_failure_leaves_state_witness :
    create_user (fun s => s) 7 { users := [sampleDbUserAlice], chats := [] }
      { username := "alice", secret := "pw", auth_type := 1 }
      = (none, { users := [sampleDbUserAlice], chats := [] }) ∧
    create_user (fun s => s) 7 { users := [], chats := [] }
      { username := "bob", secret := "pw", auth_type := 2 }
      = (none, { users := [], chats := [] }) :=
  ⟨create_user_failure_leaves_state (fun s => s) 7
      { users := [sampleDbUserAlice], chats := [] }
      { username := "alice", secret := "pw", auth_type := 1 }
      (Or.inl ⟨sampleDbUserAlice, by decide, rfl⟩),
   create_user_failure_leaves_state (fun s => s) 7 { users := [], chats := [] }
      { username := "bob", secret := "pw", auth_type := 2 }
      (Or.inr (by decide))⟩

/-- C2: on a fresh username with `auth_type = 1`, `create_user` succeeds
and the persisted auth row stores the one-way hash of the plaintext, never
the plaintext itself (assuming the hash never returns its argument). -/
theorem create_user_hashes_secret (hash : String → String) (freshId : Nat)
    (db : DbState) (ua : user_schema.UserAuth)
    (hfresh : ¬ ∃ u ∈ db.users, u.username = ua.username)
    (htype : ua.auth_type = 1)
    (hhash : ∀ s, hash s ≠ s) :
    ∃ v du, create_user hash freshId db ua
        = (some v, { db with users := db.users ++ [du] }) ∧
      du.username = ua.username ∧
      du.auth.map (fun a => a.secret) = [hash ua.secret] ∧
      ∀ a ∈ du.auth, a.secret ≠ ua.secret := by
  have hex : ¬ (get_user db ua.username).isSome = true := fun hx =>
    hfresh ((get_user_isSome_iff db ua.username).mp hx)
  refine ⟨{ username := ua.username, id := freshId, is_active := true, email := "",
            full_name := "", theme_light := false,
            default_prompt := default_prompt_text, auth := [], chats := [] },
          { id := freshId, username := ua.username, email := "", full_name := "",
            theme_light := false, default_prompt := default_prompt_text,
            is_active := true,
            auth := [{ secret := hash ua.secret, auth_type := ua.auth_type,
                       user_id := freshId }],
            chats := [] }, ?_, rfl, by simp, ?_⟩
  · unfold create_user
    simp [hex, htype, Mappers.user_view_to_db, Mappers.user_view_to_db_core,
          Mappers.user_auth_view_to_db, Mappers.user_db_to_view,
          Mappers.user_db_to_view_fn]
  · intro a ha
    simp only [List.mem_singleton] at ha
    subst ha
    exact hhash ua.secret

/-- Witness for C2 with an empty store and the concrete hash
`fun s => s ++ "!"`, which never returns its argument. -/
theorem create_user_hashes_secret_witness :
    (¬ ∃ u ∈ (⟨[], []⟩ : DbState).users, u.username = "alice") ∧
    ∃ v du, create_user (fun s => s ++ "!") 5 ⟨[], []⟩
        ⟨"alice", "pw", 1⟩
        = (some v, { (⟨[], []⟩ : DbState) with users := [] ++ [du] }) ∧
      du.username = "alice" ∧
      du.auth.map (fun a => a.secret) = [(fun s => s ++ "!") "pw"] ∧
      ∀ a ∈ du.auth, a.secret ≠ "pw" :=
  ⟨by simp,
   create_user_hashes_secret (fun s => s ++ "!") 5 ⟨[], []⟩ ⟨"alice", "pw", 1⟩
     (by simp) rfl
     (fun s h => by
       have hlen := congrArg String.length h
       rw [String.length_append] at hlen
       simp at hlen
       exact absurd hlen (by decide))⟩

/-- C3: `get_user` is an exact-match lookup whose result carries the auth
collection populated from the stored records (non-empty whenever the row
has auth records), and answers `none` when no row matches; `get_user_by_email`
is an exact-match lookup whose result always carries an empty auth
collection. -/
theorem lookup_views (db : DbState) (username email : String) :
    (∀ v, get_user db username = some v →
        ∃ du, du ∈ db.users ∧ du.username = username ∧
          v.auth = du.auth.map (fun a =>
            { username := du.username, secret := a.secret,
              auth_type := a.auth_type }) ∧
          (du.auth ≠ [] → v.auth ≠ [])) ∧
    ((¬ ∃ du ∈ db.users, du.username = username) → get_user db username = none) ∧
    (∀ v, get_user_by_email db email = some v →
        (∃ du ∈ db.users, du.email = email) ∧ v.auth = []) ∧
    ((¬ ∃ du ∈ db.users, du.email = email) → get_user_by_email db email = none) := by
  refine ⟨?_, ?_, ?_, ?_⟩
  · intro v hv
    simp only [get_user, Mappers.user_db_to_view, Option.map_eq_some'] at hv
    obtain ⟨du, hfind, rfl⟩ := hv
    refine ⟨du, List.mem_of_find?_eq_some hfind, ?_, rfl, ?_⟩
    · simpa using List.find?_some hfind
    · intro hne
      simpa [Mappers.user_db_to_view_fn, List.map_eq_nil_iff] using hne
  · intro hnone
    have hfd : db.users.find? (fun x => x.username == username) = none := by
      rw [List.find?_eq_none]
      intro x hx
      simp only [beq_iff_eq]
      exact fun he => hnone ⟨x, hx, he⟩
    simp [get_user, Mappers.user_db_to_view, hfd]
  · intro v hv
    simp only [get_user_by_email, Mappers.user_db_to_view, Option.map_eq_some'] at hv
    obtain ⟨du, hfind, rfl⟩ := hv
    exact ⟨⟨du, List.mem_of_find?_eq_some hfind, by simpa using List.find?_some hfind⟩,
           rfl⟩
  · intro hnone
    have hfd : db.users.find? (fun x => x.email == email) = none := by
      rw [List.find?_eq_none]
      intro x hx
      simp only [beq_iff_eq]
      exact fun he => hnone ⟨x, hx, he⟩
    simp [get_user_by_email, Mappers.user_db_to_view, hfd]

/-- Concrete one-user state (the row holds one auth record), for the C3
witness. -/
def sampleDbLookup : DbState :=
  { users := [{ id := 1, username := "alice", email := "a@b",
                full_name := "Alice", theme_light := false,
                default_prompt := "p", is_active := true,
                auth := [{ secret := "h", auth_type := 1, user_id := 1 }] }],
    chats := [] }

/-- Witness for C3: on `sampleDbLookup`, the username lookup carries the
stored auth record and the email lookup of the same user carries none. -/
theorem lookup_views_witness :
    (∃ du, du ∈ sampleDbLookup.users ∧ du.username = "alice" ∧
      (⟨"alice", 1, true, "a@b", "Alice", false, "p",
        [⟨"alice", "h", 1⟩], []⟩ : user_schema.User).auth = du.auth.map (fun a =>
          { username := du.username, secret := a.secret,
            auth_type := a.auth_type }) ∧
      (du.auth ≠ [] →
        (⟨"alice", 1, true, "a@b", "Alice", false, "p",
          [⟨"alice", "h", 1⟩], []⟩ : user_schema.User).auth ≠ [])) ∧
    ((∃ du ∈ sampleDbLookup.users, du.email = "a@b") ∧
      (⟨"alice", 1, true, "a@b", "Alice", false, "p", [], []⟩ :
        user_schema.User).auth = []) :=
  ⟨(lookup_views sampleDbLookup "alice" "a@b").1
     ⟨"alice", 1, true, "a@b", "Alice", false, "p", [⟨"alice", "h", 1⟩], []⟩ rfl,
   (lookup_views sampleDbLookup "alice" "a@b").2.2.1
     ⟨"alice", 1, true, "a@b", "Alice", false, "p", [], []⟩ rfl⟩

/-- A successful `find?` splits the list at the first hit, and
`updateFirst` rewrites exactly that element. -/
theorem find?_updateFirst_split {α : Type} (p : α → Bool) (f : α → α) :
    ∀ (l : List α) (a : α), l.find? p = some a →
      ∃ pre post, l = pre ++ a :: post ∧ (∀ x ∈ pre, ¬ p x) ∧
        updateFirst p f l = pre ++ f a :: post := by
  intro l
  induction l with
  | nil => intro a h; cases h
  | cons x xs ih =>
    intro a h
    by_cases hx : p x
    · rw [List.find?_cons_of_pos _ hx] at h
      cases h
      exact ⟨[], xs, rfl, by simp, by simp [updateFirst, hx]⟩
    · rw [List.find?_cons_of_neg _ hx] at h
      obtain ⟨pre, post, hl, hpre, hupd⟩ := ih a h
      refine ⟨x :: pre, post, by simp [hl], ?_, by simp [updateFirst, hx, hupd]⟩
      intro y hy
      rcases List.mem_cons.mp hy with rfl | hy2
      · exact hx
      · exact hpre y hy2

/-- C5: `update_user` returns `none` on an unchanged state when no row
carries the view's username; otherwise it rewrites the first matching row
in place — every scalar field (id included) taken from the view, the stored
`auth` and `chats` collections untouched — and returns the mutated row. -/
theorem update_user_spec (db : DbState) (u : user_schema.User) :
    ((¬ ∃ x ∈ db.users, x.username = u.username) → update_user db u = (none, db)) ∧
    (∀ old, db.users.find? (fun x => x.username == u.username) = some old →
      ∃ r pre post,
        update_user db u = (some r, { db with users := pre ++ r :: post }) ∧
        db.users = pre ++ old :: post ∧ (∀ x ∈ pre, x.username ≠ u.username) ∧
        r.id = u.id ∧ r.username = u.username ∧ r.email = u.email ∧
        r.full_name = u.full_name ∧ r.theme_light = u.theme_light ∧
        r.default_prompt = u.default_prompt ∧ r.is_active = u.is_active ∧
        r.auth = old.auth ∧ r.chats = old.chats) := by
  constructor
  · intro hnone
    have hfd : db.users.find? (fun x => x.username == u.username) = none := by
      rw [List.find?_eq_none]
      intro x hx
      simp only [beq_iff_eq]
      exact fun he => hnone ⟨x, hx, he⟩
    simp [update_user, hfd]
  · intro old hfind
    obtain ⟨pre, post, hl, hpre, hupd⟩ :=
      find?_updateFirst_split (fun x => x.username == u.username)
        (fun x => update_user_overwrite x u) db.users old hfind
    refine ⟨update_user_overwrite old u, pre, post, ?_, hl, ?_,
            rfl, rfl, rfl, rfl, rfl, rfl, rfl, rfl, rfl⟩
    · simp [update_user, hfind, hupd]
    · intro x hx
      simpa using hpre x hx

/-- Concrete one-user state for the C5 witness. -/
def sampleDbUpdate : DbState :=
  { users := [{ id := 1, username := "alice", email := "old@b",
                full_name := "Alice", theme_light := false,
                default_prompt := "p", is_active := true,
                auth := [{ secret := "h", auth_type := 1, user_id := 1 }] }],
    chats := [] }

/-- Witness for C5: updating `alice` with a new email mutates the stored
row in place, keeping its auth and chats collections. -/
theorem update_user_spec_witness :
    ∃ r pre post,
      update_user sampleDbUpdate
          ⟨"alice", 2, true, "new@b", "Alice B", true, "q", [], []⟩
        = (some r, { sampleDbUpdate with users := pre ++ r :: post }) ∧
      sampleDbUpdate.users = pre ++
        ({ id := 1, username := "alice", email := "old@b",
           full_name := "Alice", theme_light := false,
           default_prompt := "p", is_active := true,
           auth := [{ secret := "h", auth_type := 1, user_id := 1 }] } :
          user_model.User) :: post ∧
      (∀ x ∈ pre, x.username ≠ "alice") ∧
      r.id = 2 ∧ r.username = "alice" ∧ r.email = "new@b" ∧
      r.full_name = "Alice B" ∧ r.theme_light = true ∧
      r.default_prompt = "q" ∧ r.is_active = true ∧
      r.auth = [{ secret := "h", auth_type := 1, user_id := 1 }] ∧
      r.chats = [] :=
  (update_user_spec sampleDbUpdate
      ⟨"alice", 2, true, "new@b", "Alice B", true, "q", [], []⟩).2
    { id := 1, username := "alice", email := "old@b",
      full_name := "Alice", theme_light := false,
      default_prompt := "p", is_active := true,
      auth := [{ secret := "h", auth_type := 1, user_id := 1 }] }
    (by decide)

/-- When exactly one element satisfies `p`, erasing the first hit is the
same as filtering every hit out. -/
theorem eraseP_eq_filter_not_of_countP_one {α : Type} (p : α → Bool) :
    ∀ l : List α, l.countP p = 1 → l.eraseP p = l.filter (fun x => !(p x)) := by
  intro l
  induction l with
  | nil => intro h; simp at h
  | cons x xs ih =>
    intro h
    by_cases hx : p x
    · have h0 : xs.countP p = 0 := by
        rw [List.countP_cons_of_pos _ _ hx] at h
        omega
      have hall : ∀ a ∈ xs, ¬ p a = true := List.countP_eq_zero.mp h0
      rw [List.eraseP_cons_of_pos hx, List.filter_cons_of_neg (by simp [hx]),
          Eq.comm, List.filter_eq_self]
      intro a ha
      simp [hall a ha]
    · rw [List.countP_cons_of_neg _ _ hx] at h
      rw [List.eraseP_cons_of_neg hx, List.filter_cons_of_pos (by simp [hx]), ih h]

/-- C6: `remove_chat` deletes the single matching row (filtering the match
out of the chats table) when exactly one row carries the chat id, and
returns an error with the state untouched when zero or several rows
match. -/
theorem remove_chat_exactly_one (db : DbState) (chat : user_schema.Chat) :
    (db.chats.countP (fun c => c.chat_id == chat.chat_id) = 1 →
      remove_chat db chat = (Except.ok (),
        { db with chats := db.chats.filter (fun c => !(c.chat_id == chat.chat_id)) })) ∧
    (db.chats.countP (fun c => c.chat_id == chat.chat_id) ≠ 1 →
      ∃ e, remove_chat db chat = (Except.error e, db)) := by
  constructor
  · intro hone
    have hlen : (db.chats.filter (fun c => c.chat_id == chat.chat_id)).length = 1 := by
      rw [← List.countP_eq_length_filter]
      exact hone
    rw [remove_chat]
    simp only [hlen, if_pos]
    rw [eraseP_eq_filter_not_of_countP_one _ _ hone]
  · intro hne
    have hlen : (db.chats.filter (fun c => c.chat_id == chat.chat_id)).length ≠ 1 := by
      rw [← List.countP_eq_length_filter]
      exact hne
    refine ⟨"query did not return exactly one row", ?_⟩
    rw [remove_chat]
    simp [hlen]

/-- Concrete chats table with a unique row `c1` and a duplicated row `c2`,
for the C6 witness. -/
def sampleDbChats : DbState :=
  { users := [],
    chats := [{ chat_id := "c1", owner := some "alice" },
              { chat_id := "c2", owner := some "bob" },
              { chat_id := "c2", owner := some "bob" }] }

/-- Witness for C6: deleting `c1` removes exactly that row; deleting the
absent `c0` and the duplicated `c2` both error with the state untouched. -/
theorem remove_chat_exactly_one_witness :
    remove_chat sampleDbChats ⟨"c1", "alice"⟩ = (Except.ok (),
      { sampleDbChats with
        chats := sampleDbChats.chats.filter (fun c => !(c.chat_id == "c1")) }) ∧
    (∃ e, remove_chat sampleDbChats ⟨"c0", "alice"⟩ = (Except.error e, sampleDbChats)) ∧
    (∃ e, remove_chat sampleDbChats ⟨"c2", "bob"⟩ = (Except.error e, sampleDbChats)) :=
  ⟨(remove_chat_exactly_one sampleDbChats ⟨"c1", "alice"⟩).1 (by decide),
   (remove_chat_exactly_one sampleDbChats ⟨"c0", "alice"⟩).2 (by decide),
   (remove_chat_exactly_one sampleDbChats ⟨"c2", "bob"⟩).2 (by decide)⟩

/-- Usernames are pairwise distinct across the stored rows. -/
def usernamesNodup (l : List user_model.User) : Prop :=
  (l.map (fun u => u.username)).Nodup

/-- The spec's uniqueness invariant on a session state. -/
def uniqueUsernames (db : DbState) : Prop :=
  usernamesNodup db.users

/-- One service call of the sequential interface (`crud.py` plus the
seeding routine); reads carry their arguments but never mutate. -/
inductive Op where
  | lookup (username : String)
  | lookupByEmail (email : String)
  | listing (skip limit : Nat)
  | create (hash : String → String) (freshId : Nat) (ua : user_schema.UserAuth)
  | update (u : user_schema.User)
  | chatCreate (chat : user_schema.Chat)
  | chatRemove (chat : user_schema.Chat)
  | seed (freshId : Nat)

/-- State transition of one service call: the read operations return values
without touching the session; the mutating ones thread the session
state. -/
def step (db : DbState) : Op → DbState
  | Op.lookup _ => db
  | Op.lookupByEmail _ => db
  | Op.listing _ _ => db
  | Op.create hash freshId ua => (create_user hash freshId db ua).2
  | Op.update u => (update_user db u).2
  | Op.chatCreate chat => create_chat db chat
  | Op.chatRemove chat => (remove_chat db chat).2
  | Op.seed freshId => seed_db freshId db

/-- Appending a row whose username no stored row carries keeps usernames
pairwise distinct. -/
theorem usernamesNodup_append (l : List user_model.User) (du : user_model.User)
    (h : usernamesNodup l) (hf : ∀ x ∈ l, x.username ≠ du.username) :
    usernamesNodup (l ++ [du]) := by
  unfold usernamesNodup at h ⊢
  rw [List.map_append, List.nodup_append]
  refine ⟨h, by simp, ?_⟩
  intro a ha
  simp only [List.mem_map] at ha
  obtain ⟨x, hx, rfl⟩ := ha
  simpa using hf x hx

/-- The `update_user` rewrite leaves the stored username multiset
untouched: the looked-up row already carries the username written back. -/
theorem map_username_updateFirst (u : user_schema.User) :
    ∀ l : List user_model.User,
      (updateFirst (fun x => x.username == u.username)
          (fun x => update_user_overwrite x u) l).map (fun x => x.username)
        = l.map (fun x => x.username) := by
  intro l
  induction l with
  | nil => rfl
  | cons x xs ih =>
    by_cases hx : x.username == u.username
    · have hx2 : x.username = u.username := by simpa using hx
      simp [updateFirst, hx, update_user_overwrite, hx2]
    · simp [updateFirst, hx, ih]

/-- Creation `create_user` preserves username uniqueness: it only appends a row
after the existence pre-check ruled the username out. -/
theorem create_user_keeps_unique (hash : String → String) (freshId : Nat)
    (db : DbState) (ua : user_schema.UserAuth) (h : uniqueUsernames db) :
    uniqueUsernames (create_user hash freshId db ua).2 := by
  by_cases hex : (get_user db ua.username).isSome
  · simpa [create_user, hex] using h
  · by_cases ht : ua.auth_type = 1
    · have hall : ∀ x ∈ db.users, x.username ≠ ua.username := by
        intro x hx he
        exact hex ((get_user_isSome_iff db ua.username).mpr ⟨x, hx, he⟩)
      simp only [create_user, hex, Bool.false_eq_true, if_false, if_neg, ht, if_true,
        if_pos, Mappers.user_view_to_db]
      exact usernamesNodup_append db.users _ h hall
    · simpa [create_user, hex, ht] using h

/-- Update `update_user` preserves username uniqueness. -/
theorem update_user_keeps_unique (db : DbState) (u : user_schema.User)
    (h : uniqueUsernames db) : uniqueUsernames (update_user db u).2 := by
  unfold update_user
  cases hfd : db.users.find? (fun x => x.username == u.username) with
  | none => simpa using h
  | some old =>
      simp only []
      unfold uniqueUsernames usernamesNodup at h ⊢
      simpa [map_username_updateFirst] using h

/-- Seeding `seed_db` preserves username uniqueness: the system row is only added
when no row is named `"system"`. -/
theorem seed_db_keeps_unique (freshId : Nat) (db : DbState)
    (h : uniqueUsernames db) : uniqueUsernames (seed_db freshId db) := by
  by_cases hex : (db.users.find? (fun x => x.username == "system")).isSome
  · simpa [seed_db, hex] using h
  · have hall : ∀ x ∈ db.users, x.username ≠ "system" := by
      intro x hx he
      refine hex ?_
      rw [List.find?_isSome]
      exact ⟨x, hx, by simpa using he⟩
    simp only [seed_db, hex, Bool.false_eq_true, if_false]
    exact usernamesNodup_append db.users _ h hall

/-- The chat operations never touch the users table. -/
theorem chat_ops_keep_users (db : DbState) (chat : user_schema.Chat) :
    (create_chat db chat).users = db.users ∧
    (remove_chat db chat).2.users = db.users := by
  refine ⟨rfl, ?_⟩
  unfold remove_chat
  by_cases hl : (db.chats.filter (fun c => c.chat_id == chat.chat_id)).length = 1
  · simp [hl]
  · simp [hl]

/-- Every single service call preserves username uniqueness. -/
theorem step_keeps_unique (db : DbState) (op : Op) (h : uniqueUsernames db) :
    uniqueUsernames (step db op) := by
  cases op with
  | lookup username => exact h
  | lookupByEmail email => exact h
  | listing skip limit => exact h
  | create hash freshId ua => exact create_user_keeps_unique hash freshId db ua h
  | update u => exact update_user_keeps_unique db u h
  | chatCreate chat =>
      unfold uniqueUsernames usernamesNodup at h ⊢
      rw [step, (chat_ops_keep_users db chat).1]
      exact h
  | chatRemove chat =>
      unfold uniqueUsernames usernamesNodup at h ⊢
      rw [step, (chat_ops_keep_users db chat).2]
      exact h
  | seed freshId => exact seed_db_keeps_unique freshId db h

/-- C8: starting from any state with pairwise-distinct usernames, every
sequence of get/create/update/delete service calls leaves usernames
pairwise distinct. -/
theorem usernames_unique_invariant (db : DbState) (ops : List Op)
    (h : uniqueUsernames db) : uniqueUsernames (ops.foldl step db) := by
  induction ops generalizing db with
  | nil => exact h
  | cons op ops ih => exact ih (step db op) (step_keeps_unique db op h)

/-- Witness for C8: a concrete run — seeding, a signup, an update and a
chat round trip — starting from the empty state. -/
theorem usernames_unique_invariant_witness :
    uniqueUsernames ⟨[], []⟩ ∧
    uniqueUsernames (List.foldl step ⟨[], []⟩
      [Op.seed 1,
       Op.create (fun s => s ++ "#") 2 ⟨"alice", "pw", 1⟩,
       Op.update ⟨"alice", 9, true, "a@b", "Alice", false, "p", [], []⟩,
       Op.chatCreate ⟨"c1", "alice"⟩,
       Op.lookup "alice",
       Op.chatRemove ⟨"c1", "alice"⟩]) :=
  ⟨by simp [uniqueUsernames, usernamesNodup],
   usernames_unique_invariant ⟨[], []⟩
     [Op.seed 1,
      Op.create (fun s => s ++ "#") 2 ⟨"alice", "pw", 1⟩,
      Op.update ⟨"alice", 9, true, "a@b", "Alice", false, "p", [], []⟩,
      Op.chatCreate ⟨"c1", "alice"⟩,
      Op.lookup "alice",
      Op.chatRemove ⟨"c1", "alice"⟩]
     (by simp [uniqueUsernames, usernamesNodup])⟩

end serge
